import Mathlib

/-!
Verification of the Buffered File wrapper (File_Wrapper.h).

The repository ships only the class declaration (File_Wrapper.h); the
member-function bodies and File_Exception.h are not part of the sources.
The mode flags, the field layout and the documented exception codes are
translated from the header; every operation body is modelled from the
specification, as marked on each definition.

Bytes are modelled as Nat values; the owned buffer is a list of bytes whose
length plays the role of bufferSize_.
-/

namespace FileWrapper

/-! ## Mode bit flags, translated from the Mode enum in File_Wrapper.h -/

def MODE_WRITE : Nat := 0x00000001

def MODE_READ : Nat := 0x00000002

def MODE_BINARY : Nat := 0x00000004

def MODE_TEXT : Nat := 0x00000008

def MODE_CLEAR : Nat := 0x00000010

def MODE_APPEND : Nat := 0x00000020

def MODE_OVERWRITE : Nat := 0x00000040

def MODE_PROTECT : Nat := 0x00000080

def MODE_CREATE : Nat := 0x00000100

def MODE_SAME : Nat := 0x80000000

/-- Test whether a mode bitmask has a given flag set. -/
def hasFlag (m f : Nat) : Bool := m &&& f != 0

/-- Error codes documented in the header comments of File_Wrapper.h:
E_FOPENERROR, E_FILETOOLARGE, E_OUTOFMEMORY, E_PROTECTED.  The PutChar
documentation lists E_PROTECTED both for a write into the protected area
and for a write into a read-only file. -/
inductive FileError where
  | E_FOPENERROR
  | E_FILETOOLARGE
  | E_OUTOFMEMORY
  | E_PROTECTED
deriving DecidableEq, Repr

/-- The private state fields of class File (File_Wrapper.h): open flag,
owned filename, owned buffer, file size, current position, protected
prefix end, and the resolved mode.  bufferSize_ is represented by the
length of the buffer list. -/
structure FileState where
  isOpen : Bool
  filename : List Nat
  buffer : List Nat
  fileSize : Nat
  currentPos : Nat
  protectEnd : Nat
  mode : Nat
deriving DecidableEq, Repr

/-- bufferSize_: the size of the internal buffer. -/
def bufferSize (s : FileState) : Nat := s.buffer.length

/-- The state of a closed instance: no buffer and no filename held. -/
def closedFile : FileState :=
  { isOpen := false, filename := [], buffer := [], fileSize := 0,
    currentPos := 0, protectEnd := 0, mode := 0 }

/-- Modelled from the spec: ApplyDefaults (body missing from the sources).
Applies the documented defaults MODE_WRITE, MODE_BINARY, MODE_OVERWRITE to
any category of the bitmask that is unset. -/
def applyDefaults (m : Nat) : Nat :=
  let m1 := if !hasFlag m MODE_WRITE && !hasFlag m MODE_READ then
    m ||| MODE_WRITE else m
  let m2 := if !hasFlag m1 MODE_BINARY && !hasFlag m1 MODE_TEXT then
    m1 ||| MODE_BINARY else m1
  if !hasFlag m2 MODE_CLEAR && !hasFlag m2 MODE_APPEND
      && !hasFlag m2 MODE_OVERWRITE then
    m2 ||| MODE_OVERWRITE else m2

/-- Modelled from the spec: File::Open (body missing from the sources).
The OS read collaborator is abstracted by passing the file content as a
byte list.  Resolves the mode, populates the buffer, and sets the
counters: fileSize is the number of bytes held, currentPos follows the
existence policy (append starts at the end, otherwise at the beginning),
and protectEnd covers the pre-existing content when MODE_PROTECT is set. -/
def openFile (filename : List Nat) (content : List Nat) (mode : Nat) :
    FileState :=
  let m := applyDefaults mode
  let data := if hasFlag m MODE_CLEAR then [] else content
  let fs := data.length
  { isOpen := true, filename := filename, buffer := data, fileSize := fs,
    currentPos := if hasFlag m MODE_APPEND then fs else 0,
    protectEnd := if hasFlag m MODE_PROTECT then fs else 0,
    mode := m }

/-- Modelled from the spec: File::Close (body missing from the sources).
The OS write collaborator is abstracted by the osWriteOk argument.  If the
instance is open and the flush succeeds, buffer and filename are released
and the state becomes Closed; if the flush fails, the state is unchanged
and E_FOPENERROR is reported. -/
def Close (s : FileState) (osWriteOk : Bool) : FileState × Option FileError :=
  if s.isOpen then
    if osWriteOk then (closedFile, none)
    else (s, some FileError.E_FOPENERROR)
  else (s, none)

/-- Modelled from the spec: File::WriteFile (body missing from the
sources).  Writes the buffer to the OS collaborator without altering any
instance state; a failed OS open reports E_FOPENERROR. -/
def WriteFile (s : FileState) (osWriteOk : Bool) :
    FileState × Option FileError :=
  (s, if osWriteOk then none else some FileError.E_FOPENERROR)

/-- Modelled from the spec: File::EndOfFile (body missing from the
sources).  True exactly when currentPos has reached fileSize. -/
def EndOfFile (s : FileState) : Bool := decide (s.fileSize ≤ s.currentPos)

/-- Modelled from the spec: File::GetPos (body missing from the sources).
Returns the current buffer position unconditionally. -/
def GetPos (s : FileState) : Nat := s.currentPos

/-- Whitespace bytes in the C locale sense: space, tab, newline, vertical
tab, form feed, carriage return. -/
def isWhitespace (c : Nat) : Bool :=
  c = 32 || c = 9 || c = 10 || c = 11 || c = 12 || c = 13

/-- Fuel-driven whitespace skip: advances the position past whitespace
bytes while it stays below fileSize. -/
def skipWSAux (buf : List Nat) (fileSize : Nat) : Nat → Nat → Nat
  | 0, pos => pos
  | fuel + 1, pos =>
    if pos < fileSize && isWhitespace (buf.getD pos 0) then
      skipWSAux buf fileSize fuel (pos + 1)
    else pos

/-- Advance a position past whitespace bytes within the logical file. -/
def skipWS (buf : List Nat) (fileSize pos : Nat) : Nat :=
  skipWSAux buf fileSize (fileSize - pos) pos

/-- Sentinel end-of-file character returned by GetChar at or past the
logical end (the unsigned char image of EOF). -/
def eofChar : Nat := 255

/-- The position GetChar reads from: the current position, past any
whitespace when requested. -/
def readPos (s : FileState) (ignoreWhitespace : Bool) : Nat :=
  if ignoreWhitespace then skipWS s.buffer s.fileSize s.currentPos
  else s.currentPos

/-- Modelled from the spec: File::GetChar (body missing from the
sources).  Optionally skips whitespace, then returns the byte at the
current position and advances by one; at or past fileSize it returns the
sentinel without advancing past the logical end. -/
def GetChar (s : FileState) (ignoreWhitespace : Bool) : FileState × Nat :=
  if readPos s ignoreWhitespace < s.fileSize then
    ({ s with currentPos := readPos s ignoreWhitespace + 1 },
      s.buffer.getD (readPos s ignoreWhitespace) 0)
  else
    ({ s with currentPos := readPos s ignoreWhitespace }, eofChar)

/-- Copy loop of GetString: copies bytes until the terminator is consumed
(not copied), the logical end is reached, or the room runs out; returns
the copied bytes and the new position. -/
def getStringLoop (buf : List Nat) (fileSize term : Nat) :
    Nat → Nat → List Nat × Nat
  | pos, 0 => ([], pos)
  | pos, room + 1 =>
    if pos < fileSize then
      if buf.getD pos 0 = term then ([], pos + 1)
      else
        ((buf.getD pos 0) :: (getStringLoop buf fileSize term (pos + 1) room).1,
          (getStringLoop buf fileSize term (pos + 1) room).2)
    else ([], pos)

/-- Modelled from the spec: File::GetString (body missing from the
sources).  Skips leading whitespace, copies bytes into the output until
the terminator is consumed, the end of file is reached, or maxLength - 1
bytes were copied; always null-terminates the output and advances
currentPos to just past the last byte consumed.  Returns the new state,
the output bytes (null terminator included) and the count of bytes
written, null terminator included. -/
def GetString (s : FileState) (maxLength : Nat) (terminator : Nat) :
    FileState × List Nat × Nat :=
  let p0 := skipWS s.buffer s.fileSize s.currentPos
  let r := getStringLoop s.buffer s.fileSize terminator p0 (maxLength - 1)
  let out := r.1 ++ [0]
  ({ s with currentPos := r.2 }, out, out.length)

/-- Modelled from the spec: File::Resize (body missing from the sources).
A desired size at or below the current buffer size is a no-op; otherwise
the buffer grows to the desired size, preserving existing content, the
new slack uninitialized (modelled as zero bytes).  Allocation is modelled
as always succeeding. -/
def Resize (s : FileState) (desiredSize : Nat) : FileState :=
  if desiredSize ≤ bufferSize s then s
  else { s with buffer :=
    s.buffer ++ List.replicate (desiredSize - s.buffer.length) 0 }

/-- The unguarded write step of PutChar: store the byte at currentPos,
advance the position, extend fileSize when the position passes it. -/
def putCharWrite (s : FileState) (character : Nat) : FileState :=
  { s with buffer := s.buffer.set s.currentPos character,
           currentPos := s.currentPos + 1,
           fileSize := max s.fileSize (s.currentPos + 1) }

/-- Modelled from the spec: File::PutChar (body missing from the
sources).  A write below protectEnd, or on a read-only instance, fails
with E_PROTECTED unless ignoreErrors is set, in which case it is a silent
no-op.  Otherwise, a full buffer is grown first; the byte is stored at
currentPos, the position advances, and fileSize extends when passed. -/
def PutChar (s : FileState) (character : Nat) (ignoreErrors : Bool) :
    FileState × Option FileError :=
  if s.currentPos < s.protectEnd then
    if ignoreErrors then (s, none) else (s, some FileError.E_PROTECTED)
  else if hasFlag s.mode MODE_READ then
    if ignoreErrors then (s, none) else (s, some FileError.E_PROTECTED)
  else
    (putCharWrite
      (if s.currentPos = bufferSize s then Resize s (s.currentPos + 1) else s)
      character, none)

/-- Modelled from the spec: the copy constructor File::File(const File&)
(body missing from the sources).  Duplicates the filename, the buffer and
every counter of the source; the result is a value snapshot, independent
of the source afterwards. -/
def copyFile (rhs : FileState) : FileState :=
  { isOpen := rhs.isOpen, filename := rhs.filename, buffer := rhs.buffer,
    fileSize := rhs.fileSize, currentPos := rhs.currentPos,
    protectEnd := rhs.protectEnd, mode := rhs.mode }

/-! ## Operations as a step alphabet, for reachability -/

/-- One public operation of the class, with its external inputs (file
content read by Open, success of the OS write collaborator). -/
inductive Op where
  | opOpen (filename content : List Nat) (mode : Nat)
  | opClose (osWriteOk : Bool)
  | opWrite (osWriteOk : Bool)
  | opGetChar (ignoreWhitespace : Bool)
  | opGetPos
  | opEndOfFile
  | opGetString (maxLength terminator : Nat)
  | opPutChar (character : Nat) (ignoreErrors : Bool)
  | opResize (desiredSize : Nat)
  | opCopy
deriving DecidableEq, Repr

/-- The state after running an operation (failed operations keep the
state they report). -/
def applyOp (s : FileState) : Op → FileState
  | Op.opOpen f c m => openFile f c m
  | Op.opClose ok => (Close s ok).1
  | Op.opWrite ok => (WriteFile s ok).1
  | Op.opGetChar iw => (GetChar s iw).1
  | Op.opGetPos => s
  | Op.opEndOfFile => s
  | Op.opGetString ml t => (GetString s ml t).1
  | Op.opPutChar c ig => (PutChar s c ig).1
  | Op.opResize n => Resize s n
  | Op.opCopy => copyFile s

/-- The error, if any, an operation raises from a given state. -/
def raisesOp (s : FileState) : Op → Option FileError
  | Op.opClose ok => (Close s ok).2
  | Op.opWrite ok => (WriteFile s ok).2
  | Op.opPutChar c ig => (PutChar s c ig).2
  | _ => none

/-- States reachable from construction (which opens) through any sequence
of operations, successful or failed. -/
inductive Reachable : FileState → Prop where
  | base (f c : List Nat) (m : Nat) : Reachable (openFile f c m)
  | step (s : FileState) (op : Op) : Reachable s → Reachable (applyOp s op)

/-- The state invariants of the Buffered File: the cursor within the
logical size, the logical size within the buffer, and the protected
prefix within the logical size. -/
def Inv (s : FileState) : Prop :=
  s.currentPos ≤ s.fileSize ∧ s.fileSize ≤ bufferSize s ∧
    s.protectEnd ≤ s.fileSize

instance (s : FileState) : Decidable (Inv s) := by
  unfold Inv; infer_instance

/-- Iterate GetChar with default arguments a number of times, keeping the
state. -/
def iterGetChar (s : FileState) : Nat → FileState
  | 0 => s
  | n + 1 => iterGetChar (GetChar s false).1 n

/-- A two-byte file opened writable with the protect flag: the whole
pre-existing content is a protected prefix and the cursor sits inside
it. -/
def exProtected : FileState :=
  openFile [102] [97, 98]
    (MODE_WRITE ||| MODE_BINARY ||| MODE_OVERWRITE ||| MODE_PROTECT)

/-- A two-byte file opened read-only, cursor at the beginning, nothing
protected. -/
def exReadOnly : FileState :=
  openFile [102] [97, 98] (MODE_READ ||| MODE_BINARY ||| MODE_OVERWRITE)

/-- The five-byte file abcde opened in the default overwrite mode. -/
def exAbcde : FileState :=
  openFile [102] [97, 98, 99, 100, 101]
    (MODE_WRITE ||| MODE_BINARY ||| MODE_OVERWRITE)

/-- A ten-byte file opened in append plus protect mode. -/
def exAppendProtect : FileState :=
  openFile [102] (List.replicate 10 65) (MODE_APPEND ||| MODE_PROTECT)

/-- The five-byte file hello opened in the default overwrite mode. -/
def exHello : FileState :=
  openFile [104] [104, 101, 108, 108, 111]
    (MODE_WRITE ||| MODE_BINARY ||| MODE_OVERWRITE)

/-- The hello file after two GetChar reads: cursor at offset 2. -/
def exHelloPos2 : FileState := (GetChar (GetChar exHello false).1 false).1

/-- A one-byte file opened in append mode: the cursor already sits at the
logical end. -/
def exAtEnd : FileState :=
  openFile [102] [97] (MODE_WRITE ||| MODE_BINARY ||| MODE_APPEND)

/-- A three-byte file opened in the default overwrite mode. -/
def exAbc : FileState :=
  openFile [102] [97, 98, 99] (MODE_WRITE ||| MODE_BINARY ||| MODE_OVERWRITE)

/-! ## Helper lemmas -/

lemma readPos_false (s : FileState) : readPos s false = s.currentPos := rfl

lemma skipWSAux_le (buf : List Nat) (fileSize : Nat) :
    ∀ fuel pos, pos ≤ fileSize → skipWSAux buf fileSize fuel pos ≤ fileSize := by
  intro fuel
  induction fuel with
  | zero => intro pos h; simpa [skipWSAux] using h
  | succ n ih =>
    intro pos h
    unfold skipWSAux
    split
    · rename_i hc
      have hlt : pos < fileSize := by
        simp only [Bool.and_eq_true, decide_eq_true_eq] at hc
        exact hc.1
      exact ih (pos + 1) hlt
    · exact h

lemma skipWSAux_ge (buf : List Nat) (fileSize : Nat) :
    ∀ fuel pos, pos ≤ skipWSAux buf fileSize fuel pos := by
  intro fuel
  induction fuel with
  | zero => intro pos; simp [skipWSAux]
  | succ n ih =>
    intro pos
    unfold skipWSAux
    split
    · exact le_trans (Nat.le_succ pos) (ih (pos + 1))
    · exact le_refl pos

lemma skipWS_le (buf : List Nat) (fileSize pos : Nat) (h : pos ≤ fileSize) :
    skipWS buf fileSize pos ≤ fileSize :=
  skipWSAux_le buf fileSize (fileSize - pos) pos h

lemma skipWS_ge (buf : List Nat) (fileSize pos : Nat) :
    pos ≤ skipWS buf fileSize pos :=
  skipWSAux_ge buf fileSize (fileSize - pos) pos

lemma getStringLoop_le (buf : List Nat) (fileSize term : Nat) :
    ∀ room pos, pos ≤ fileSize →
      (getStringLoop buf fileSize term pos room).2 ≤ fileSize := by
  intro room
  induction room with
  | zero => intro pos h; simpa [getStringLoop] using h
  | succ n ih =>
    intro pos h
    unfold getStringLoop
    split
    · rename_i hlt
      split
      · exact hlt
      · exact ih (pos + 1) hlt
    · exact h

lemma inv_openFile (f c : List Nat) (m : Nat) : Inv (openFile f c m) := by
  unfold Inv openFile bufferSize
  by_cases hap : hasFlag (applyDefaults m) MODE_APPEND = true <;>
    by_cases hpr : hasFlag (applyDefaults m) MODE_PROTECT = true <;>
      simp [hap, hpr]

lemma inv_closedFile : Inv closedFile := by
  unfold Inv closedFile bufferSize; simp

lemma inv_Close (s : FileState) (ok : Bool) (h : Inv s) :
    Inv (Close s ok).1 := by
  unfold Close
  split
  · split
    · exact inv_closedFile
    · exact h
  · exact h

lemma inv_GetChar (s : FileState) (iw : Bool) (h : Inv s) :
    Inv (GetChar s iw).1 := by
  obtain ⟨h1, h2, h3⟩ := h
  have hle : readPos s iw ≤ s.fileSize := by
    unfold readPos
    cases iw
    · simpa using h1
    · simpa using skipWS_le s.buffer s.fileSize s.currentPos h1
  unfold GetChar
  split
  · rename_i hlt
    exact ⟨hlt, h2, h3⟩
  · exact ⟨hle, h2, h3⟩

lemma inv_GetString (s : FileState) (ml t : Nat) (h : Inv s) :
    Inv (GetString s ml t).1 := by
  obtain ⟨h1, h2, h3⟩ := h
  have hp0 : skipWS s.buffer s.fileSize s.currentPos ≤ s.fileSize :=
    skipWS_le s.buffer s.fileSize s.currentPos h1
  have hloop :
      (getStringLoop s.buffer s.fileSize t
        (skipWS s.buffer s.fileSize s.currentPos) (ml - 1)).2 ≤ s.fileSize :=
    getStringLoop_le s.buffer s.fileSize t (ml - 1)
      (skipWS s.buffer s.fileSize s.currentPos) hp0
  exact ⟨hloop, h2, h3⟩

lemma inv_Resize (s : FileState) (n : Nat) (h : Inv s) :
    Inv (Resize s n) := by
  obtain ⟨h1, h2, h3⟩ := h
  unfold Resize
  split
  · exact ⟨h1, h2, h3⟩
  · refine ⟨h1, ?_, h3⟩
    simp only [Inv, bufferSize, List.length_append, List.length_replicate]
    exact le_trans h2 (Nat.le_add_right _ _)

lemma Resize_fileSize (s : FileState) (n : Nat) :
    (Resize s n).fileSize = s.fileSize := by
  unfold Resize; split <;> rfl

lemma Resize_currentPos (s : FileState) (n : Nat) :
    (Resize s n).currentPos = s.currentPos := by
  unfold Resize; split <;> rfl

lemma Resize_protectEnd (s : FileState) (n : Nat) :
    (Resize s n).protectEnd = s.protectEnd := by
  unfold Resize; split <;> rfl

lemma Resize_buffer_length (s : FileState) (n : Nat) :
    (Resize s n).buffer.length = max s.buffer.length n := by
  unfold Resize bufferSize
  split
  · rename_i hle
    omega
  · rename_i hgt
    simp only [List.length_append, List.length_replicate]
    omega

lemma inv_putCharWrite (s : FileState) (c : Nat)
    (h1 : s.currentPos ≤ s.fileSize) (h2 : s.fileSize ≤ s.buffer.length)
    (h3 : s.protectEnd ≤ s.fileSize) (h4 : s.currentPos < s.buffer.length) :
    Inv (putCharWrite s c) := by
  unfold Inv putCharWrite bufferSize
  simp only [List.length_set]
  refine ⟨Nat.le_max_right _ _, ?_, ?_⟩ <;> omega

lemma inv_PutChar (s : FileState) (c : Nat) (ig : Bool) (h : Inv s) :
    Inv (PutChar s c ig).1 := by
  obtain ⟨h1, h2, h3⟩ := h
  unfold PutChar
  split
  · split <;> exact ⟨h1, h2, h3⟩
  · split
    · split <;> exact ⟨h1, h2, h3⟩
    · by_cases hfull : s.currentPos = bufferSize s
      · simp only [if_pos hfull]
        apply inv_putCharWrite
        · rw [Resize_currentPos, Resize_fileSize]; exact h1
        · rw [Resize_fileSize, Resize_buffer_length]
          unfold bufferSize at h2
          omega
        · rw [Resize_protectEnd, Resize_fileSize]; exact h3
        · rw [Resize_currentPos, Resize_buffer_length]
          unfold bufferSize at hfull
          omega
      · simp only [if_neg hfull]
        unfold bufferSize at hfull h2
        apply inv_putCharWrite s c h1 h2 h3
        omega

lemma inv_applyOp (s : FileState) (op : Op) (h : Inv s) :
    Inv (applyOp s op) := by
  cases op with
  | opOpen f c m => exact inv_openFile f c m
  | opClose ok => exact inv_Close s ok h
  | opWrite ok => exact h
  | opGetChar iw => exact inv_GetChar s iw h
  | opGetPos => exact h
  | opEndOfFile => exact h
  | opGetString ml t => exact inv_GetString s ml t h
  | opPutChar c ig => exact inv_PutChar s c ig h
  | opResize n => exact inv_Resize s n h
  | opCopy => exact h

lemma reachable_inv (s : FileState) (h : Reachable s) : Inv s := by
  induction h with
  | base f c m => exact inv_openFile f c m
  | step s op _ ih => exact inv_applyOp s op ih

/-! ## Claims -/

/-- C1, counterexample: a PutChar failing on a protected-region write and
a PutChar failing on a read-only instance report the SAME error value
E_PROTECTED, exactly as the header documents for both cases, so the
caller cannot tell from the error which of the two violations occurred.
The two states realise genuinely different violations: the first is
writable with the cursor inside the protected prefix, the second is
read-only with nothing protected. -/
theorem C1_same_error_value :
    exProtected.currentPos < exProtected.protectEnd ∧
    hasFlag exProtected.mode MODE_READ = false ∧
    ¬ exReadOnly.currentPos < exReadOnly.protectEnd ∧
    hasFlag exReadOnly.mode MODE_READ = true ∧
    (PutChar exProtected 120 false).2 = some FileError.E_PROTECTED ∧
    (PutChar exReadOnly 120 false).2 = some FileError.E_PROTECTED ∧
    (PutChar exProtected 120 false).2 = (PutChar exReadOnly 120 false).2 := by
  decide

/-- C1, amended: every failing PutChar reports the single error value
E_PROTECTED, whether the cause is a write below protectEnd or a write on
a read-only instance; the two violation kinds are distinguishable from
the other error kinds but not from each other. -/
theorem C1_putChar_error_is_protected (s : FileState) (c : Nat)
    (h : s.currentPos < s.protectEnd ∨ hasFlag s.mode MODE_READ = true) :
    (PutChar s c false).2 = some FileError.E_PROTECTED := by
  unfold PutChar
  rcases h with h | h
  · simp [h]
  · by_cases hp : s.currentPos < s.protectEnd
    · simp [hp]
    · simp [hp, h]

/-- C1, witness for the amended theorem at a concrete read-only state. -/
theorem C1_putChar_error_is_protected_witness :
    (PutChar exReadOnly 120 false).2 = some FileError.E_PROTECTED :=
  C1_putChar_error_is_protected exReadOnly 120 (Or.inr (by decide))

/-- C2: on any open instance with the cursor below protectEnd, PutChar
with ignoreErrors false fails with the protected-write error and returns
the state unchanged (fileSize, currentPos and buffer included), and the
same call with ignoreErrors true is a silent no-op reporting no
failure. -/
theorem C2_putChar_protected (s : FileState) (c : Nat)
    (hopen : s.isOpen = true) (h : s.currentPos < s.protectEnd) :
    PutChar s c false = (s, some FileError.E_PROTECTED) ∧
    PutChar s c true = (s, none) := by
  unfold PutChar
  simp [h]

/-- C2, witness at a concrete protected state. -/
theorem C2_putChar_protected_witness :
    PutChar exProtected 120 false = (exProtected, some FileError.E_PROTECTED) ∧
    PutChar exProtected 120 true = (exProtected, none) :=
  C2_putChar_protected exProtected 120 (by decide) (by decide)

/-- C3: every reachable state satisfies the invariants
currentPos ≤ fileSize ≤ bufferSize and protectEnd ≤ fileSize, and every
operation applied at such a state preserves them. -/
theorem C3_invariants (s : FileState) (h : Reachable s) :
    Inv s ∧ ∀ op : Op, Inv (applyOp s op) :=
  ⟨reachable_inv s h, fun op => inv_applyOp s op (reachable_inv s h)⟩

/-- C3, witness at a freshly opened three-byte file. -/
theorem C3_invariants_witness :
    Inv (openFile [102] [97, 98, 99] 0) ∧
    ∀ op : Op, Inv (applyOp (openFile [102] [97, 98, 99] 0) op) :=
  C3_invariants (openFile [102] [97, 98, 99] 0)
    (Reachable.base [102] [97, 98, 99] 0)

/-- C4: on the five-byte file abcde opened in overwrite mode, GetString
with maxLength 4 and terminator c copies exactly ab, null-terminates the
output, returns 3 (the written bytes, null included), and leaves the
cursor at offset 3, just past the consumed terminator, which is not part
of the output. -/
theorem C4_getString_scenario :
    GetString exAbcde 4 99 =
      ({ exAbcde with currentPos := 3 }, [97, 98, 0], 3) := by
  decide

/-- C5: opening a ten-byte file in append plus protect mode protects the
whole prior content (protectEnd = 10) and starts the cursor at the end
(currentPos = 10); PutChar at position 10 with ignoreErrors false then
succeeds and extends fileSize to 11. -/
theorem C5_append_protect_scenario :
    exAppendProtect.protectEnd = 10 ∧
    exAppendProtect.currentPos = 10 ∧
    (PutChar exAppendProtect 120 false).2 = none ∧
    (PutChar exAppendProtect 120 false).1.fileSize = 11 := by
  decide

/-- C6: in every reachable state, EndOfFile is true exactly when
currentPos ≥ fileSize, and (by the invariant currentPos ≤ fileSize)
exactly when currentPos = fileSize. -/
theorem C6_endOfFile (s : FileState) (h : Reachable s) :
    (EndOfFile s = true ↔ s.fileSize ≤ s.currentPos) ∧
    (EndOfFile s = true ↔ s.currentPos = s.fileSize) := by
  obtain ⟨h1, _, _⟩ := reachable_inv s h
  unfold EndOfFile
  constructor
  · simp
  · simp only [decide_eq_true_eq]
    omega

/-- C6, witness at a file opened in append mode, where the cursor starts
at the end. -/
theorem C6_endOfFile_witness :
    (EndOfFile exAtEnd = true ↔ exAtEnd.fileSize ≤ exAtEnd.currentPos) ∧
    (EndOfFile exAtEnd = true ↔ exAtEnd.currentPos = exAtEnd.fileSize) :=
  C6_endOfFile exAtEnd
    (Reachable.base [102] [97] (MODE_WRITE ||| MODE_BINARY ||| MODE_APPEND))

/-- C7: when Close fails (the OS write collaborator refuses), the
instance is returned exactly as it was, still open, filename, buffer and
every counter untouched, so the caller may retry. -/
theorem C7_close_failure (s : FileState) (ok : Bool)
    (hopen : s.isOpen = true) (hfail : (Close s ok).2 ≠ none) :
    (Close s ok).1 = s ∧ (Close s ok).1.isOpen = true := by
  cases ok with
  | true =>
    exact absurd (by unfold Close; simp [hopen]) hfail
  | false =>
    unfold Close
    simp [hopen]

/-- C7, witness at a concrete open state with a failing OS write. -/
theorem C7_close_failure_witness :
    (Close exAbc false).1 = exAbc ∧ (Close exAbc false).1.isOpen = true :=
  C7_close_failure exAbc false (by decide) (by decide)

/-- C8: if N consecutive GetChar calls (default arguments) all read below
the logical end, GetPos afterwards equals the initial position plus N. -/
theorem C8_getPos_after_getChar (s : FileState) (n : Nat)
    (h : s.currentPos + n ≤ s.fileSize) :
    GetPos (iterGetChar s n) = GetPos s + n := by
  induction n generalizing s with
  | zero => rfl
  | succ m ih =>
    have hlt : s.currentPos < s.fileSize := by omega
    unfold iterGetChar GetChar
    rw [readPos_false, if_pos hlt]
    have hstep := ih { s with currentPos := s.currentPos + 1 }
      (by simpa using by omega)
    unfold GetPos at hstep ⊢
    simp only [hstep]
    omega

/-- C8, witness: two reads on the three-byte file advance the position
from 0 to 2. -/
theorem C8_getPos_after_getChar_witness :
    GetPos (iterGetChar exAbc 2) = GetPos exAbc + 2 :=
  C8_getPos_after_getChar exAbc 2 (by decide)

/-- C9: copying the open hello file with the cursor at offset 2 yields a
value snapshot: after a subsequent PutChar mutates the source buffer, the
copy still holds the original bytes and position, different from the
mutated source buffer. -/
theorem C9_copy_snapshot :
    (copyFile exHelloPos2).buffer = [104, 101, 108, 108, 111] ∧
    (copyFile exHelloPos2).currentPos = 2 ∧
    (PutChar exHelloPos2 88 false).1.buffer = [104, 101, 88, 108, 111] ∧
    (copyFile exHelloPos2).buffer ≠ (PutChar exHelloPos2 88 false).1.buffer := by
  decide

/-- C10: the query and read operations EndOfFile, GetChar, GetPos and
GetString raise none of the error kinds in any reachable state, and
GetChar at or past the logical end returns the sentinel end-of-file
character instead of failing. -/
theorem C10_reads_never_fail (s : FileState) (h : Reachable s) :
    (∀ iw : Bool, raisesOp s (Op.opGetChar iw) = none) ∧
    raisesOp s Op.opGetPos = none ∧
    raisesOp s Op.opEndOfFile = none ∧
    (∀ ml t : Nat, raisesOp s (Op.opGetString ml t) = none) ∧
    (s.fileSize ≤ s.currentPos → (GetChar s false).2 = eofChar) := by
  refine ⟨fun iw => rfl, rfl, rfl, fun ml t => rfl, fun hEof => ?_⟩
  unfold GetChar
  rw [readPos_false, if_neg (by omega)]

/-- C10, witness at a state already at end of file, read-only not
required. -/
theorem C10_reads_never_fail_witness :
    (GetChar exAtEnd false).2 = eofChar :=
  (C10_reads_never_fail exAtEnd
    (Reachable.base [102] [97] (MODE_WRITE ||| MODE_BINARY ||| MODE_APPEND))
  ).2.2.2.2 (by decide)

end FileWrapper
